import Mathlib

/-!
Verification of the Lalona on-device encrypted vault.

This file gives a shallow embedding, in Lean 4, of the security core of the
Lalona repository — the TypeScript app layer, the Kotlin JNI bridge
(NativeCryptoModule), and the native C crypto core (lalona_crypto, the C
source under src/android/app/src/main/java/com/lalona/secure/ whose JNI
exports are nativePBKDF2 / nativeHKDF / nativeAESGCMEncrypt /
nativeAESGCMDecrypt / nativeHMACSHA256 / nativeRandomBytes) — and proves
properties of that embedding.

Modelling conventions:
- A byte array (JS Uint8Array, Kotlin ByteArray, C uint8_t buffer) is a
  List Nat whose entries are kept below 256 wherever the source stores into
  a byte buffer; the Base64 and hex encodings that only shuttle bytes
  across the JNI bridge are identities of this byte model (both are
  injective).
- The OpenSSL libcrypto primitives that the C core links against (HMAC,
  the EVP AES-256-GCM cipher, RAND_bytes) are third-party library code,
  not part of this repository; they enter the embedding as an arbitrary
  implementation of the OpenSSL structure below, whose fields carry the
  library's documented contract.  Everything the repository itself does —
  argument checks, buffer layouts, the HKDF extract-expand loop, error
  returns — is embedded from the C source.
- The C core returns NULL when a checked malloc or RAND_bytes call fails;
  these externally caused failure paths are modelled by explicit Bool
  arguments (allocOk, randOk) on the embedded functions.  Failures the C
  does not check (it would crash, not return) are outside the functional
  semantics and are not modelled.
- Asynchronous JS is modelled by explicit state passing; the cooperative
  event-loop interleaving of async functions is modelled as a sequence of
  atomic segments (the code between two await points is one segment).
-/

namespace Lalona

/-- Byte arrays are lists of naturals; entries are kept below 256 at every
point where the source stores into a Uint8Array. -/
abbrev Bytes := List Nat

/-- UTF-8 encoding of a string, modelled as the list of character codes
(injective, which is all the development relies on). -/
def strBytes (s : String) : Bytes := s.data.map Char.toNat

/-- The OpenSSL primitives called by the C core (libcrypto is third-party
code outside this repository).  An arbitrary implementation satisfying the
library's documented contract: HMAC-SHA256 returns 32 bytes; for
AES-256-GCM, EVP_EncryptUpdate and EVP_DecryptUpdate apply the same
length-preserving CTR keystream XOR (gcmXor), so applying it twice under
the same key and IV is the identity; the GCM tag is a 16-byte function of
key, IV, AAD and ciphertext. -/
structure OpenSSL where
  hmacSHA256 : Bytes → Bytes → Bytes
  hmacSHA256_len : ∀ key data, (hmacSHA256 key data).length = 32
  gcmXor : Bytes → Bytes → Bytes → Bytes
  gcmXor_len : ∀ key iv x, (gcmXor key iv x).length = x.length
  gcmXor_inv : ∀ key iv x, gcmXor key iv (gcmXor key iv x) = x
  gcmTag : Bytes → Bytes → Bytes → Bytes → Bytes
  gcmTag_len : ∀ key iv aad ct, (gcmTag key iv aad ct).length = 16

/-- The AAD bytes fed to the EVP context: nothing when the JNI argument is
null or empty (the C guards the update with aad && aad_len > 0), else the
bytes themselves. -/
def aadFeed : Option Bytes → Bytes
  | none => []
  | some a => a

/-- Block T(n) of the HKDF-SHA256 expand loop of nativeHKDF:
T(1) = HMAC(PRK, info ∥ 0x01) and T(n+1) = HMAC(PRK, T(n) ∥ info ∥ ctr);
the counter is a uint8, hence the mod 256. -/
def hkdfT (ossl : OpenSSL) (prk info : Bytes) : Nat → Bytes
  | 0 => []
  | 1 => ossl.hmacSHA256 prk (info ++ [1])
  | n + 2 =>
    ossl.hmacSHA256 prk
      (hkdfT ossl prk info (n + 1) ++ info ++ [(n + 2) % 256])

/-- Concatenation of the first n expand blocks. -/
def hkdfBlocks (ossl : OpenSSL) (prk info : Bytes) : Nat → Bytes
  | 0 => []
  | n + 1 => hkdfBlocks ossl prk info n ++ hkdfT ossl prk info (n + 1)

/-- The OKM computed by nativeHKDF: PRK = HMAC-SHA256(salt, IKM), then the
expand loop runs ceil(outLen / 32) times and copies min(remaining, 32)
bytes of each fresh T — the first outLen bytes of the concatenated
blocks. -/
def hkdfOkm (ossl : OpenSSL) (ikm salt info : Bytes) (outLen : Nat) :
    Bytes :=
  (hkdfBlocks ossl (ossl.hmacSHA256 salt ikm) info
    ((outLen + 31) / 32)).take outLen

/-- nativeHKDF.  The one checked failure is the malloc of the OKM buffer
(the ikm/salt null guards cannot fire: the Kotlin bridge always passes
arrays). -/
def nativeHKDF (ossl : OpenSSL) (allocOk : Bool) (ikm salt info : Bytes)
    (outLen : Nat) : Option Bytes :=
  if allocOk then some (hkdfOkm ossl ikm salt info outLen) else none

/-- The 12 IV bytes RAND_bytes writes in nativeAESGCMEncrypt.  The C
ignores the RAND_bytes return value, so the IV is whatever 12 bytes the
oracle provides — there is no failure path here. -/
def gcmIv (ivRand : Nat → Nat) : Bytes :=
  (List.range 12).map (fun i => ivRand i % 256)

/-- nativeAESGCMEncrypt: NULL when key_len ≠ 32 (the key/pt null guards
cannot fire from the bridge); otherwise CT = EncryptUpdate(pt) and the
output layout IV(12) ∥ CT ∥ Tag(16).  The ct malloc is unchecked in the
C. -/
def nativeAESGCMEncrypt (ossl : OpenSSL) (ivRand : Nat → Nat)
    (key pt : Bytes) (aad : Option Bytes) : Option Bytes :=
  if key.length = 32 then
    some (gcmIv ivRand ++ ossl.gcmXor key (gcmIv ivRand) pt ++
      ossl.gcmTag key (gcmIv ivRand) (aadFeed aad)
        (ossl.gcmXor key (gcmIv ivRand) pt))
  else none

/-- nativeAESGCMDecrypt: NULL when key_len ≠ 32 or blob_len < 28, or when
the pt malloc fails; otherwise parse IV = blob[0..12), ct_len =
blob_len − 12 − 16, Tag = the trailing 16 bytes, run DecryptUpdate over the
ciphertext, and return NULL (after wiping the partial plaintext) unless the
tag authenticates (key, IV, AAD, CT). -/
def nativeAESGCMDecrypt (ossl : OpenSSL) (allocOk : Bool)
    (key blob : Bytes) (aad : Option Bytes) : Option Bytes :=
  if key.length = 32 ∧ 28 ≤ blob.length then
    if allocOk then
      if blob.drop (12 + (blob.length - 12 - 16)) =
          ossl.gcmTag key (blob.take 12) (aadFeed aad)
            ((blob.drop 12).take (blob.length - 12 - 16)) then
        some (ossl.gcmXor key (blob.take 12)
          ((blob.drop 12).take (blob.length - 12 - 16)))
      else none
    else none
  else none

/-- nativeHMACSHA256: a direct HMAC(EVP_sha256) call (the null guards
cannot fire from the bridge); always 32 bytes, no failure path. -/
def nativeHMACSHA256 (ossl : OpenSSL) (key data : Bytes) : Bytes :=
  ossl.hmacSHA256 key data

/-- nativeRandomBytes: rejects length ≤ 0 or length > 4096 up front, and
can still return NULL in bounds when the malloc or the RAND_bytes call
fails; on success exactly length random bytes. -/
def nativeRandomBytes (allocOk randOk : Bool) (rand : Nat → Nat)
    (length : Int) : Option Bytes :=
  if length ≤ 0 ∨ length > 4096 then none
  else if allocOk then
    if randOk then
      some ((List.range length.toNat).map (fun i => rand i % 256))
    else none
  else none

theorem hkdfT_length (ossl : OpenSSL) (prk info : Bytes) (n : Nat) :
    (hkdfT ossl prk info (n + 1)).length = 32 := by
  cases n with
  | zero => exact ossl.hmacSHA256_len _ _
  | succ m => exact ossl.hmacSHA256_len _ _

theorem hkdfBlocks_length (ossl : OpenSSL) (prk info : Bytes) :
    ∀ n, (hkdfBlocks ossl prk info n).length = 32 * n := by
  intro n
  induction n with
  | zero => rfl
  | succ m ih =>
    show (hkdfBlocks ossl prk info m ++ hkdfT ossl prk info (m + 1)).length
        = 32 * (m + 1)
    rw [List.length_append, ih, hkdfT_length]
    omega

theorem hkdfOkm_length (ossl : OpenSSL) (ikm salt info : Bytes)
    (outLen : Nat) : (hkdfOkm ossl ikm salt info outLen).length = outLen := by
  rw [hkdfOkm, List.length_take, hkdfBlocks_length]
  have h1 := Nat.div_add_mod (outLen + 31) 32
  have h2 : (outLen + 31) % 32 < 32 := Nat.mod_lt _ (by decide)
  omega

theorem nativeAESGCMEncrypt_eq (ossl : OpenSSL) (ivRand : Nat → Nat)
    (key pt : Bytes) (aad : Option Bytes) (hkey : key.length = 32) :
    nativeAESGCMEncrypt ossl ivRand key pt aad =
      some (gcmIv ivRand ++ ossl.gcmXor key (gcmIv ivRand) pt ++
        ossl.gcmTag key (gcmIv ivRand) (aadFeed aad)
          (ossl.gcmXor key (gcmIv ivRand) pt)) := by
  rw [nativeAESGCMEncrypt, if_pos hkey]

theorem native_gcm_roundtrip (ossl : OpenSSL) (ivRand : Nat → Nat)
    (key pt : Bytes) (aad : Option Bytes) (hkey : key.length = 32) :
    nativeAESGCMDecrypt ossl true key
      (gcmIv ivRand ++ ossl.gcmXor key (gcmIv ivRand) pt ++
        ossl.gcmTag key (gcmIv ivRand) (aadFeed aad)
          (ossl.gcmXor key (gcmIv ivRand) pt)) aad = some pt := by
  set iv := gcmIv ivRand with hiv_def
  set ct := ossl.gcmXor key iv pt with hct_def
  set tg := ossl.gcmTag key iv (aadFeed aad) ct with htg_def
  have hiv : iv.length = 12 := by simp [hiv_def, gcmIv]
  have hct : ct.length = pt.length := ossl.gcmXor_len _ _ _
  have htg : tg.length = 16 := ossl.gcmTag_len _ _ _ _
  have hblob : (iv ++ ct ++ tg).length = 12 + pt.length + 16 := by
    simp only [List.length_append, hiv, hct, htg]
  have hmidlen : (iv ++ ct ++ tg).length - 12 - 16 = ct.length := by omega
  have h1 : (iv ++ ct ++ tg).take 12 = iv := by
    rw [List.append_assoc]
    exact List.take_left' hiv
  have h2 : ((iv ++ ct ++ tg).drop 12).take
      ((iv ++ ct ++ tg).length - 12 - 16) = ct := by
    rw [List.append_assoc, List.drop_left' hiv]
    have hlen2 : (iv ++ (ct ++ tg)).length - 12 - 16 = ct.length := by
      simp only [List.length_append, hiv, hct, htg]
      omega
    rw [hlen2]
    exact List.take_left' rfl
  have h3 : (iv ++ ct ++ tg).drop
      (12 + ((iv ++ ct ++ tg).length - 12 - 16)) = tg := by
    rw [hmidlen]
    have hl : (iv ++ ct).length = 12 + ct.length := by
      rw [List.length_append, hiv]
    exact List.drop_left' hl
  rw [nativeAESGCMDecrypt, if_pos ⟨hkey, by omega⟩, if_pos rfl, h1, h2, h3,
    if_pos htg_def.symm]
  rw [hct_def, ossl.gcmXor_inv]

/-- The AAD bound to a fragment ciphertext.  In the source it is the Base64
of the UTF-8 bytes of imageId ++ ":" ++ decimal(index); since Base64 and
UTF-8 are injective and the decimal index contains no colon, that string
determines and is determined by the pair (imageId, index), which the model
stores directly. -/
abbrev Aad := String × Nat

/-- AAD for fragment index idx of image imageId (source: base64 of
imageId ":" idx). -/
def mkAad (imageId : String) (idx : Nat) : Aad := (imageId, idx)

/-- The underlying AAD bytes (the Base64-decoded value the native layer
receives). -/
def aadBytesOf (a : Aad) : Bytes := strBytes (a.1 ++ ":" ++ toString a.2)

/-- Deterministic mixing seed of the concrete stand-in instance below. -/
def mixSeed (xs : Bytes) : Nat :=
  xs.foldl (fun acc b => (acc * 131 + b + 7) % 1000003) 17

/-- One keystream byte of the stand-in cipher. -/
def modelKs (key iv : Bytes) (i : Nat) : Nat :=
  (mixSeed (key ++ 254 :: iv) + i) % 256

/-- The stand-in CTR keystream XOR. -/
def modelXor (key iv x : Bytes) : Bytes :=
  (List.range x.length).map (fun i => x.getD i 0 ^^^ modelKs key iv i)

theorem modelXor_length (key iv x : Bytes) :
    (modelXor key iv x).length = x.length := by
  simp [modelXor]

theorem modelXor_getD (key iv x : Bytes) (i : Nat) (h : i < x.length) :
    (modelXor key iv x).getD i 0 = x.getD i 0 ^^^ modelKs key iv i := by
  have h2 : i < (modelXor key iv x).length := by
    rw [modelXor_length]
    exact h
  rw [List.getD_eq_getElem _ _ h2]
  simp [modelXor]

theorem modelXor_inv (key iv x : Bytes) :
    modelXor key iv (modelXor key iv x) = x := by
  apply List.ext_getElem (by simp [modelXor_length])
  intro i h1 h2
  have hx : i < x.length := h2
  have hm : i < (modelXor key iv x).length := by
    rw [modelXor_length]
    exact hx
  calc (modelXor key iv (modelXor key iv x))[i]
      = (modelXor key iv (modelXor key iv x)).getD i 0 :=
        (List.getD_eq_getElem _ _ h1).symm
    _ = (modelXor key iv x).getD i 0 ^^^ modelKs key iv i :=
        modelXor_getD key iv _ i (by rw [modelXor_length] at h1; exact h1)
    _ = (x.getD i 0 ^^^ modelKs key iv i) ^^^ modelKs key iv i := by
        rw [modelXor_getD key iv x i hx]
    _ = x.getD i 0 := Nat.xor_cancel_right _ _
    _ = x[i] := List.getD_eq_getElem _ _ hx

/-- A small concrete instance of the OpenSSL contract, used only to
evaluate witnesses and counterexamples at explicit inputs; it is a
stand-in satisfying the contract fields, not the real libcrypto, and every
theorem about the embedding is quantified over all instances. -/
def osslModel : OpenSSL where
  hmacSHA256 key data :=
    (List.range 32).map
      (fun i => (mixSeed (key ++ 255 :: data) * (i + 1) + i * i + 3) % 256)
  hmacSHA256_len key data := by simp
  gcmXor := modelXor
  gcmXor_len := modelXor_length
  gcmXor_inv := modelXor_inv
  gcmTag key iv aad ct :=
    (List.range 16).map
      (fun i => (mixSeed (key ++ 253 :: iv ++ 252 :: aad ++ 251 :: ct) + i) % 256)
  gcmTag_len key iv aad ct := by simp

/-! ### CanaryService (src/src/security/IntegrityGuard.ts, CanaryService) -/

namespace CanaryService

/-- CRYPTO_CONSTANTS.CANARY_LENGTH. -/
def CANARY_LENGTH : Nat := 16
/-- CRYPTO_CONSTANTS.CANARY_TRAILING_PAD. -/
def CANARY_TRAILING_PAD : Nat := 16
/-- CRYPTO_CONSTANTS.CANARY_TOTAL_OVERHEAD. -/
def CANARY_TOTAL_OVERHEAD : Nat := CANARY_LENGTH + CANARY_TRAILING_PAD

/-- CanaryService.derive through the bridge: NativeCrypto.hkdf with
ikm = chapterRootKey, salt = UTF8("canary:" ++ index),
info = "canary-derive", outLen = 16; none models the HKDF_FAILED rejection
the Kotlin bridge raises when nativeHKDF returns NULL (okm malloc
failure). -/
def derive (ossl : OpenSSL) (allocOk : Bool) (chapterRootKey : Bytes)
    (fragmentIndex : Nat) : Option Bytes :=
  nativeHKDF ossl allocOk chapterRootKey
    (strBytes ("canary:" ++ toString fragmentIndex))
    (strBytes "canary-derive") CANARY_LENGTH

/-- The canary bytes CanaryService.derive returns on its success path. -/
def deriveCanary (ossl : OpenSSL) (chapterRootKey : Bytes)
    (fragmentIndex : Nat) : Bytes :=
  hkdfOkm ossl chapterRootKey
    (strBytes ("canary:" ++ toString fragmentIndex))
    (strBytes "canary-derive") CANARY_LENGTH

/-- One byte of the derived trailing padding:
canary[i mod 16] XOR ((i+1) * 0x5A), truncated by the Uint8Array store. -/
def padByte (canary : Bytes) (i : Nat) : Nat :=
  (canary.getD (i % CANARY_LENGTH) 0 ^^^ ((i + 1) * 0x5A)) % 256

/-- CanaryService.embed: data ∥ canary ∥ derived padding.  Matches the source
(out.set into a buffer of size data.length + 32) whenever the canary has
length 16, which is what CanaryService.derive produces. -/
def embed (data canary : Bytes) : Bytes :=
  data ++ canary ++ (List.range CANARY_TRAILING_PAD).map (padByte canary)

/-- CanaryService.verify: constant-time comparison of the canary region;
the running value diff accumulates the bitwise ors of the XORed bytes exactly
as in the source. -/
def verify (dataWithCanary expectedCanary : Bytes) : Bool :=
  if dataWithCanary.length < CANARY_TOTAL_OVERHEAD then false
  else
    ((List.range CANARY_LENGTH).foldl
      (fun diff i =>
        diff |||
          (dataWithCanary.getD (dataWithCanary.length - CANARY_TOTAL_OVERHEAD + i) 0 ^^^
            expectedCanary.getD i 0)) 0) == 0

/-- CanaryService.strip: the prefix before the 32-byte overhead. -/
def strip (dataWithCanary : Bytes) : Bytes :=
  dataWithCanary.take (dataWithCanary.length - CANARY_TOTAL_OVERHEAD)

end CanaryService

/-! ### FragmentEngine encrypt/decrypt (src/src/security/FragmentEngine.ts) -/

/-- The EncryptedFragment record of FragmentEngine.ts.  encryptedData holds
the Base64-decoded wire bytes IV(12) ∥ CT ∥ Tag(16) (Base64 is injective);
hmac is the byte form of the stored hex HMAC string (hex is injective, and
CryptoEngine.verifyHMAC's constant-time hex comparison succeeds exactly when
the underlying bytes agree). -/
structure EncryptedFragment where
  index         : Nat
  encryptedData : Bytes
  aadB64        : Aad
  hmac          : Bytes
  originalSize  : Nat
deriving DecidableEq

/-- The distinct failure modes of FragmentEngine.decryptFragment: the four
mismatch throws, plus the bridge HKDF_FAILED rejection that propagates out
of CanaryService.derive when the native okm malloc fails. -/
inductive DecryptError where
  | integrityFail    -- HMAC mismatch
  | substitutionFail -- AAD mismatch
  | authFail         -- AES-GCM decrypt returned null (bridge AES_AUTH_FAIL)
  | canaryFail       -- canary mismatch
  | canaryDeriveFail -- CanaryService.derive failed (bridge HKDF_FAILED)
deriving DecidableEq

/-- Observable crypto-layer events of one decryptFragment run, in order. -/
inductive CryptoEvent where
  | hmacVerifyEv   -- CryptoEngine.verifyHMAC over the ciphertext bytes
  | aadCheckEv     -- comparison of aadB64 with the expected AAD
  | aesDecryptEv   -- CryptoEngine.decrypt (the only AES call of the path)
  | canaryDeriveEv -- CanaryService.derive
  | canaryCheckEv  -- CanaryService.verify
  | wipeEv         -- MemoryWiper.wipeUint8Array on the decrypted buffer
deriving DecidableEq

namespace FragmentEngine

/-- FragmentEngine.encryptFragment: derive canary → embed → AES-256-GCM
under chapterRootKey with AAD = (imageId, index) → HMAC over the ciphertext
bytes.  none models the thrown bridge rejection when CanaryService.derive
or the native encrypt returns null (HKDF_FAILED / AES_ENC_FAILED — the
latter fires exactly when the key is not 32 bytes). -/
def encryptFragment (ossl : OpenSSL) (ivRand : Nat → Nat)
    (hkdfAllocOk : Bool) (fragIndex : Nat) (data : Bytes) (size : Nat)
    (chapterRootKey hmacKey : Bytes) (imageId : String) :
    Option EncryptedFragment :=
  match CanaryService.derive ossl hkdfAllocOk chapterRootKey fragIndex with
  | none => none
  | some canary =>
    match nativeAESGCMEncrypt ossl ivRand chapterRootKey
        (CanaryService.embed data canary)
        (some (aadBytesOf (mkAad imageId fragIndex))) with
    | none => none
    | some blob =>
      some { index := fragIndex
             encryptedData := blob
             aadB64 := mkAad imageId fragIndex
             hmac := nativeHMACSHA256 ossl hmacKey blob
             originalSize := size }

/-- FragmentEngine.decryptFragment, instrumented with the list of crypto
events it performs: (1) HMAC verify, (2) AAD comparison, (3) AES-GCM
decrypt through nativeAESGCMDecrypt (decAllocOk is the plaintext malloc;
key-length, blob-length and tag failures all surface as the bridge
AES_AUTH_FAIL, here authFail), (4) canary derive (hkdfAllocOk is the okm
malloc) + constant-time verify, wiping the partial plaintext before
signalling a canary mismatch, (5) strip (the overhead-bearing buffer is
wiped after the copy, hence the wipe event on the success path too). -/
def decryptFragmentT (ossl : OpenSSL) (decAllocOk hkdfAllocOk : Bool)
    (ef : EncryptedFragment) (chapterRootKey hmacKey : Bytes)
    (imageId : String) : Except DecryptError Bytes × List CryptoEvent :=
  if nativeHMACSHA256 ossl hmacKey ef.encryptedData ≠ ef.hmac then
    (.error .integrityFail, [.hmacVerifyEv])
  else if ef.aadB64 ≠ mkAad imageId ef.index then
    (.error .substitutionFail, [.hmacVerifyEv, .aadCheckEv])
  else
    match nativeAESGCMDecrypt ossl decAllocOk chapterRootKey
        ef.encryptedData (some (aadBytesOf ef.aadB64)) with
    | none => (.error .authFail, [.hmacVerifyEv, .aadCheckEv, .aesDecryptEv])
    | some decrypted =>
      match CanaryService.derive ossl hkdfAllocOk chapterRootKey ef.index with
      | none =>
        (.error .canaryDeriveFail,
          [.hmacVerifyEv, .aadCheckEv, .aesDecryptEv, .canaryDeriveEv])
      | some canary =>
        if CanaryService.verify decrypted canary then
          (.ok (CanaryService.strip decrypted),
            [.hmacVerifyEv, .aadCheckEv, .aesDecryptEv, .canaryDeriveEv,
              .canaryCheckEv, .wipeEv])
        else
          (.error .canaryFail,
            [.hmacVerifyEv, .aadCheckEv, .aesDecryptEv, .canaryDeriveEv,
              .canaryCheckEv, .wipeEv])

/-- FragmentEngine.decryptFragment (result only). -/
def decryptFragment (ossl : OpenSSL) (decAllocOk hkdfAllocOk : Bool)
    (ef : EncryptedFragment) (chapterRootKey hmacKey : Bytes)
    (imageId : String) : Except DecryptError Bytes :=
  (decryptFragmentT ossl decAllocOk hkdfAllocOk ef chapterRootKey hmacKey
    imageId).1

end FragmentEngine

/-! ### Lemmas about the canary layout -/

theorem embed_length (data canary : Bytes)
    (hc : canary.length = CanaryService.CANARY_LENGTH) :
    (CanaryService.embed data canary).length =
      data.length + CanaryService.CANARY_TOTAL_OVERHEAD := by
  simp [CanaryService.embed, hc, CanaryService.CANARY_TOTAL_OVERHEAD,
    CanaryService.CANARY_LENGTH, CanaryService.CANARY_TRAILING_PAD]

theorem strip_embed (data canary : Bytes)
    (hc : canary.length = CanaryService.CANARY_LENGTH) :
    CanaryService.strip (CanaryService.embed data canary) = data := by
  rw [CanaryService.strip, embed_length data canary hc]
  simp only [Nat.add_sub_cancel, CanaryService.embed, List.append_assoc]
  exact List.take_left' rfl

theorem embed_getD_canary (data canary : Bytes) (i : Nat)
    (hc : canary.length = CanaryService.CANARY_LENGTH)
    (hi : i < CanaryService.CANARY_LENGTH) :
    (CanaryService.embed data canary).getD (data.length + i) 0 =
      canary.getD i 0 := by
  rw [CanaryService.embed, List.append_assoc,
    List.getD_append_right _ _ _ _ (Nat.le_add_right _ _), Nat.add_sub_cancel_left,
    List.getD_append]
  omega

theorem foldl_or_eq_self (g : Nat → Nat) (l : List Nat)
    (h : ∀ i ∈ l, g i = 0) : ∀ a : Nat, l.foldl (fun acc i => acc ||| g i) a = a := by
  induction l with
  | nil => intro a; rfl
  | cons hd tl ih =>
    intro a
    have hhd : g hd = 0 := h hd (List.mem_cons_self hd tl)
    simp only [List.foldl_cons, hhd, Nat.or_zero]
    exact ih (fun i hi => h i (List.mem_cons_of_mem hd hi)) a

theorem verify_embed (data canary : Bytes)
    (hc : canary.length = CanaryService.CANARY_LENGTH) :
    CanaryService.verify (CanaryService.embed data canary) canary = true := by
  rw [CanaryService.verify, if_neg (by rw [embed_length data canary hc]; omega)]
  rw [embed_length data canary hc, Nat.add_sub_cancel]
  rw [foldl_or_eq_self _ _ ?_ 0]
  · rfl
  · intro i hi
    rw [embed_getD_canary data canary i hc (by simpa using hi), Nat.xor_self]

theorem deriveCanary_length (ossl : OpenSSL) (chapterRootKey : Bytes)
    (i : Nat) :
    (CanaryService.deriveCanary ossl chapterRootKey i).length =
      CanaryService.CANARY_LENGTH :=
  hkdfOkm_length ossl chapterRootKey _ _ _

theorem derive_true_eq (ossl : OpenSSL) (chapterRootKey : Bytes) (i : Nat) :
    CanaryService.derive ossl true chapterRootKey i =
      some (CanaryService.deriveCanary ossl chapterRootKey i) := rfl

theorem encryptFragment_spec (ossl : OpenSSL) (ivRand : Nat → Nat) (i : Nat)
    (data : Bytes) (size : Nat) (crk hk : Bytes) (imageId : String)
    (hkey : crk.length = 32) :
    ∃ ef : EncryptedFragment,
      FragmentEngine.encryptFragment ossl ivRand true i data size crk hk
          imageId = some ef
      ∧ ef.index = i
      ∧ ef.aadB64 = mkAad imageId i
      ∧ ef.hmac = nativeHMACSHA256 ossl hk ef.encryptedData := by
  rw [FragmentEngine.encryptFragment]
  simp only [derive_true_eq,
    nativeAESGCMEncrypt_eq ossl ivRand crk _ _ hkey]
  exact ⟨_, rfl, rfl, rfl, rfl⟩

theorem encryptFragment_decrypts (ossl : OpenSSL) (ivRand : Nat → Nat)
    (hkdfAllocOk : Bool) (i : Nat) (data : Bytes) (size : Nat)
    (crk hk : Bytes) (imageId : String) (ef : EncryptedFragment)
    (h : FragmentEngine.encryptFragment ossl ivRand hkdfAllocOk i data size
      crk hk imageId = some ef) :
    FragmentEngine.decryptFragment ossl true true ef crk hk imageId =
      .ok data := by
  cases hkdfAllocOk with
  | false =>
    rw [FragmentEngine.encryptFragment] at h
    simp only [show CanaryService.derive ossl false crk i = none from rfl]
      at h
    exact absurd h (by simp)
  | true =>
    by_cases hkey : crk.length = 32
    · rw [FragmentEngine.encryptFragment] at h
      simp only [derive_true_eq,
        nativeAESGCMEncrypt_eq ossl ivRand crk _ _ hkey,
        Option.some.injEq] at h
      subst h
      have hlen : (CanaryService.deriveCanary ossl crk i).length =
          CanaryService.CANARY_LENGTH := deriveCanary_length ossl crk i
      have hver := verify_embed data _ hlen
      have hstr := strip_embed data _ hlen
      have hdec := native_gcm_roundtrip ossl ivRand crk
        (CanaryService.embed data (CanaryService.deriveCanary ossl crk i))
        (some (aadBytesOf (mkAad imageId i))) hkey
      rw [FragmentEngine.decryptFragment, FragmentEngine.decryptFragmentT]
      rw [if_neg (by simp)]
      rw [if_neg (by simp)]
      simp only [hdec, derive_true_eq, hver, if_true, hstr]
    · rw [FragmentEngine.encryptFragment] at h
      simp only [derive_true_eq,
        show nativeAESGCMEncrypt ossl ivRand crk
            (CanaryService.embed data
              (CanaryService.deriveCanary ossl crk i))
            (some (aadBytesOf (mkAad imageId i))) = none from
          by rw [nativeAESGCMEncrypt, if_neg hkey]] at h
      exact absurd h (by simp)

/-- C1: whenever FragmentEngine.encryptFragment produces a record (for any
key, any IV randomness, any outcome of the canary-derive malloc),
FragmentEngine.decryptFragment under the same keys and imageId succeeds on
that record and returns exactly the original data; a record is indeed
produced for every 32-byte chapter root key (the length nativeAESGCMEncrypt
checks); and CanaryService.strip undoes CanaryService.embed for every
16-byte canary. -/
theorem claim_c1 :
    (∀ (ossl : OpenSSL) (ivRand : Nat → Nat) (hkdfAllocOk : Bool)
        (data chapterRootKey hmacKey : Bytes) (imageId : String)
        (i size : Nat) (ef : EncryptedFragment),
      FragmentEngine.encryptFragment ossl ivRand hkdfAllocOk i data size
          chapterRootKey hmacKey imageId = some ef →
      FragmentEngine.decryptFragment ossl true true ef chapterRootKey
          hmacKey imageId = .ok data)
    ∧ (∀ (ossl : OpenSSL) (ivRand : Nat → Nat)
        (data chapterRootKey hmacKey : Bytes) (imageId : String)
        (i size : Nat), chapterRootKey.length = 32 →
      ∃ ef : EncryptedFragment,
        FragmentEngine.encryptFragment ossl ivRand true i data size
          chapterRootKey hmacKey imageId = some ef)
    ∧ (∀ (data canary : Bytes), canary.length = 16 →
        CanaryService.strip (CanaryService.embed data canary) = data) := by
  refine ⟨?_, ?_, ?_⟩
  · intro ossl ivRand hkdfAllocOk data chapterRootKey hmacKey imageId i size
      ef h
    exact encryptFragment_decrypts ossl ivRand hkdfAllocOk i data size
      chapterRootKey hmacKey imageId ef h
  · intro ossl ivRand data chapterRootKey hmacKey imageId i size hkey
    obtain ⟨ef, henc, _, _, _⟩ :=
      encryptFragment_spec ossl ivRand i data size chapterRootKey hmacKey
        imageId hkey
    exact ⟨ef, henc⟩
  · intro data canary hlen
    exact strip_embed data canary hlen

/-- Witness for C1 at concrete inputs: a 32-byte key, a 3-byte payload. -/
theorem claim_c1_witness :
    (∃ ef : EncryptedFragment,
      FragmentEngine.encryptFragment osslModel (fun _ => 9) true 0 [1, 2, 3]
          3 (List.replicate 32 5) [6] "img" = some ef
      ∧ FragmentEngine.decryptFragment osslModel true true ef
          (List.replicate 32 5) [6] "img" = .ok [1, 2, 3])
    ∧ CanaryService.strip
        (CanaryService.embed [1, 2, 3] (List.replicate 16 9)) = [1, 2, 3] := by
  obtain ⟨ef, henc⟩ := claim_c1.2.1 osslModel (fun _ => 9) [1, 2, 3]
    (List.replicate 32 5) [6] "img" 0 3 (by decide)
  exact ⟨⟨ef, henc, claim_c1.1 osslModel (fun _ => 9) true [1, 2, 3]
      (List.replicate 32 5) [6] "img" 0 3 ef henc⟩,
    claim_c1.2.2 [1, 2, 3] (List.replicate 16 9) (by decide)⟩

/-- C2: decryptFragment checks in a fixed order and fails with a distinct
error at the first mismatch: (1) HMAC mismatch gives IntegrityFail before
any AES call, (2) AAD mismatch gives SubstitutionFail before any AES call,
(3) a null from the native AES-GCM decrypt gives AuthFail, (4) canary
mismatch gives CanaryFail with the partial plaintext wiped before the error
returns; and a record produced by encryptFragment whose aadB64 was swapped
with the AAD of another fragment index of the same image, ciphertext and
hmac intact, fails with SubstitutionFail without reaching AES-GCM
decryption. -/
theorem claim_c2 (ossl : OpenSSL) (ef : EncryptedFragment)
    (decAllocOk hkdfAllocOk : Bool) (chapterRootKey hmacKey : Bytes)
    (imageId : String) :
    (nativeHMACSHA256 ossl hmacKey ef.encryptedData ≠ ef.hmac →
      FragmentEngine.decryptFragmentT ossl decAllocOk hkdfAllocOk ef
          chapterRootKey hmacKey imageId =
        (.error .integrityFail, [.hmacVerifyEv])
      ∧ CryptoEvent.aesDecryptEv ∉
        (FragmentEngine.decryptFragmentT ossl decAllocOk hkdfAllocOk ef
          chapterRootKey hmacKey imageId).2)
  ∧ (nativeHMACSHA256 ossl hmacKey ef.encryptedData = ef.hmac →
      ef.aadB64 ≠ mkAad imageId ef.index →
      FragmentEngine.decryptFragmentT ossl decAllocOk hkdfAllocOk ef
          chapterRootKey hmacKey imageId =
        (.error .substitutionFail, [.hmacVerifyEv, .aadCheckEv])
      ∧ CryptoEvent.aesDecryptEv ∉
        (FragmentEngine.decryptFragmentT ossl decAllocOk hkdfAllocOk ef
          chapterRootKey hmacKey imageId).2)
  ∧ (nativeHMACSHA256 ossl hmacKey ef.encryptedData = ef.hmac →
      ef.aadB64 = mkAad imageId ef.index →
      nativeAESGCMDecrypt ossl decAllocOk chapterRootKey ef.encryptedData
          (some (aadBytesOf ef.aadB64)) = none →
      FragmentEngine.decryptFragmentT ossl decAllocOk hkdfAllocOk ef
          chapterRootKey hmacKey imageId =
        (.error .authFail, [.hmacVerifyEv, .aadCheckEv, .aesDecryptEv]))
  ∧ (∀ pt : Bytes, nativeHMACSHA256 ossl hmacKey ef.encryptedData = ef.hmac →
      ef.aadB64 = mkAad imageId ef.index →
      nativeAESGCMDecrypt ossl decAllocOk chapterRootKey ef.encryptedData
          (some (aadBytesOf ef.aadB64)) = some pt →
      hkdfAllocOk = true →
      CanaryService.verify pt
          (CanaryService.deriveCanary ossl chapterRootKey ef.index) = false →
      FragmentEngine.decryptFragmentT ossl decAllocOk hkdfAllocOk ef
          chapterRootKey hmacKey imageId =
        (.error .canaryFail,
          [.hmacVerifyEv, .aadCheckEv, .aesDecryptEv, .canaryDeriveEv,
            .canaryCheckEv, .wipeEv])
      ∧ CryptoEvent.wipeEv ∈
        (FragmentEngine.decryptFragmentT ossl decAllocOk hkdfAllocOk ef
          chapterRootKey hmacKey imageId).2)
  ∧ (∀ (ivRand : Nat → Nat) (data : Bytes) (size i j : Nat),
      chapterRootKey.length = 32 → i ≠ j →
      ∃ ef0 : EncryptedFragment,
        FragmentEngine.encryptFragment ossl ivRand true i data size
            chapterRootKey hmacKey imageId = some ef0
        ∧ (FragmentEngine.decryptFragmentT ossl decAllocOk hkdfAllocOk
            { ef0 with aadB64 := mkAad imageId j } chapterRootKey hmacKey
            imageId).1 = .error .substitutionFail
        ∧ CryptoEvent.aesDecryptEv ∉
          (FragmentEngine.decryptFragmentT ossl decAllocOk hkdfAllocOk
            { ef0 with aadB64 := mkAad imageId j } chapterRootKey hmacKey
            imageId).2) := by
  refine ⟨?_, ?_, ?_, ?_, ?_⟩
  · intro h
    rw [FragmentEngine.decryptFragmentT, if_pos h]
    exact ⟨rfl, by decide⟩
  · intro h1 h2
    rw [FragmentEngine.decryptFragmentT, if_neg (by simp [h1]), if_pos h2]
    exact ⟨rfl, by decide⟩
  · intro h1 h2 h3
    rw [FragmentEngine.decryptFragmentT, if_neg (by simp [h1]),
      if_neg (by simp [h2]), h3]
  · intro pt h1 h2 h3 hA h4
    subst hA
    rw [FragmentEngine.decryptFragmentT, if_neg (by simp [h1]),
      if_neg (by simp [h2]), h3]
    simp only [derive_true_eq]
    exact ⟨by simp [h4], by simp [h4]⟩
  · intro ivRand data size i j hkey hij
    obtain ⟨ef0, henc, hidx, haad, hhmac⟩ :=
      encryptFragment_spec ossl ivRand i data size chapterRootKey hmacKey
        imageId hkey
    have hcond : ({ ef0 with aadB64 := mkAad imageId j
                  } : EncryptedFragment).aadB64 ≠
        mkAad imageId ({ ef0 with aadB64 := mkAad imageId j
                       } : EncryptedFragment).index := by
      simp only [hidx, mkAad, ne_eq, Prod.mk.injEq, not_and]
      intro _
      exact Ne.symm hij
    refine ⟨ef0, henc, ?_, ?_⟩
    · rw [FragmentEngine.decryptFragmentT, if_neg (by simp [hhmac]),
        if_pos hcond]
    · rw [FragmentEngine.decryptFragmentT, if_neg (by simp [hhmac]),
        if_pos hcond]
      decide

/-- Witness for C2 at concrete inputs: an HMAC mismatch on a bogus record,
and an AAD swapped between fragment indices 0 and 1 of a record genuinely
produced under a 32-byte key. -/
theorem claim_c2_witness :
    FragmentEngine.decryptFragmentT osslModel true true
        ⟨0, [], ("x", 0), [], 0⟩ [1] [2] "x" =
      (.error .integrityFail, [.hmacVerifyEv])
    ∧ (∃ ef0 : EncryptedFragment,
        FragmentEngine.encryptFragment osslModel (fun _ => 9) true 0 [3] 1
            (List.replicate 32 5) [2] "x" = some ef0
        ∧ (FragmentEngine.decryptFragmentT osslModel true true
            { ef0 with aadB64 := mkAad "x" 1 } (List.replicate 32 5) [2]
            "x").1 = .error .substitutionFail) := by
  obtain ⟨ef0, h1, h2, h3⟩ :=
    (claim_c2 osslModel ⟨0, [], ("x", 0), [], 0⟩ true true
      (List.replicate 32 5) [2] "x").2.2.2.2 (fun _ => 9) [3] 1 0 1
      (by decide) (by decide)
  exact ⟨((claim_c2 osslModel ⟨0, [], ("x", 0), [], 0⟩ true true [1] [2]
      "x").1 (by decide)).1,
    ⟨ef0, h1, h2⟩⟩

/-! ### FragmentEngine.split (src/src/security/FragmentEngine.ts, lines 51-70) -/

namespace FragmentEngine

/-- CRYPTO_CONSTANTS.FRAGMENT_MIN_SIZE (50 KB). -/
def FRAGMENT_MIN_SIZE : Nat := 51200
/-- CRYPTO_CONSTANTS.FRAGMENT_MAX_SIZE (200 KB). -/
def FRAGMENT_MAX_SIZE : Nat := 204800

/-- The RawFragment record of FragmentEngine.ts. -/
structure RawFragment where
  index : Nat
  data  : Bytes
  size  : Nat
deriving DecidableEq

/-- Size chosen for the fragment starting at offset: minSz plus a random
draw below maxSz - minSz when that gap is positive.  The source draws
Math.floor(Math.random() * (maxSz - minSz)), whose possible values are
exactly rand index % (maxSz - minSz) for an arbitrary oracle rand. -/
def fragSize (rand : Nat → Nat) (len offset index : Nat) : Nat :=
  let remaining := len - offset
  let minSz := min FRAGMENT_MIN_SIZE remaining
  let maxSz := min FRAGMENT_MAX_SIZE remaining
  minSz + (if minSz < maxSz then rand index % (maxSz - minSz) else 0)

theorem fragSize_pos (rand : Nat → Nat) (len offset index : Nat)
    (h : offset < len) : 1 ≤ fragSize rand len offset index := by
  simp only [fragSize, FRAGMENT_MIN_SIZE, FRAGMENT_MAX_SIZE]
  split <;> omega

theorem fragSize_le_remaining (rand : Nat → Nat) (len offset index : Nat) :
    fragSize rand len offset index ≤ len - offset := by
  simp only [fragSize, FRAGMENT_MIN_SIZE, FRAGMENT_MAX_SIZE]
  by_cases hlt : min 51200 (len - offset) < min 204800 (len - offset)
  · have hm := Nat.mod_lt (rand index)
      (Nat.sub_pos_of_lt hlt :
        0 < min 204800 (len - offset) - min 51200 (len - offset))
    simp only [if_pos hlt]
    omega
  · simp only [if_neg hlt]
    omega

/-- The loop of FragmentEngine.split, starting at a given offset and
fragment index. -/
def splitGo (rand : Nat → Nat) (raw : Bytes) (offset index : Nat) :
    List RawFragment :=
  if h : offset < raw.length then
    let size := fragSize rand raw.length offset index
    ⟨index, (raw.drop offset).take size, size⟩ ::
      splitGo rand raw (offset + size) (index + 1)
  else []
termination_by raw.length - offset
decreasing_by
  have := fragSize_pos rand raw.length offset index h
  omega

/-- FragmentEngine.split. -/
def split (rand : Nat → Nat) (raw : Bytes) : List RawFragment :=
  splitGo rand raw 0 0

theorem splitGo_eq_cons (rand : Nat → Nat) (raw : Bytes) (offset index : Nat)
    (h : offset < raw.length) :
    splitGo rand raw offset index =
      (⟨index, (raw.drop offset).take (fragSize rand raw.length offset index),
          fragSize rand raw.length offset index⟩ : RawFragment) ::
        splitGo rand raw (offset + fragSize rand raw.length offset index)
          (index + 1) := by
  rw [splitGo, dif_pos h]

theorem splitGo_eq_nil (rand : Nat → Nat) (raw : Bytes) (offset index : Nat)
    (h : ¬ offset < raw.length) :
    splitGo rand raw offset index = [] := by
  rw [splitGo, dif_neg h]

theorem splitGo_join (rand : Nat → Nat) (raw : Bytes) :
    ∀ offset index,
      ((splitGo rand raw offset index).map RawFragment.data).flatten =
        raw.drop offset := by
  intro offset index
  induction offset, index using splitGo.induct rand raw with
  | case1 offset index h size ih =>
    rw [splitGo_eq_cons rand raw offset index h]
    simp only [List.map_cons, List.flatten_cons]
    rw [ih, ← List.drop_drop]
    exact List.take_append_drop _ _
  | case2 offset index h =>
    rw [splitGo_eq_nil rand raw offset index h]
    simp only [List.map_nil, List.flatten_nil]
    exact (List.drop_eq_nil_of_le (by omega)).symm

/-- Default element for positional access into fragment lists. -/
def noFragment : RawFragment := ⟨0, [], 0⟩

theorem splitGo_index_size (rand : Nat → Nat) (raw : Bytes) :
    ∀ offset index k,
      k < (splitGo rand raw offset index).length →
      ((splitGo rand raw offset index).getD k noFragment).index = index + k
      ∧ ((splitGo rand raw offset index).getD k noFragment).data.length =
          ((splitGo rand raw offset index).getD k noFragment).size := by
  intro offset index
  induction offset, index using splitGo.induct rand raw with
  | case1 offset index h size ih =>
    have hsize : size = fragSize rand raw.length offset index := rfl
    clear_value size
    subst hsize
    intro k hk
    cases k with
    | zero =>
      rw [splitGo_eq_cons rand raw offset index h]
      simp only [List.getD_cons_zero]
      refine ⟨by omega, ?_⟩
      have hsz := fragSize_le_remaining rand raw.length offset index
      simp only [List.length_take, List.length_drop]
      omega
    | succ k =>
      rw [splitGo_eq_cons rand raw offset index h] at hk
      simp only [List.length_cons] at hk
      have := ih k (by omega)
      rw [splitGo_eq_cons rand raw offset index h]
      simp only [List.getD_cons_succ]
      exact ⟨by rw [this.1]; omega, this.2⟩
  | case2 offset index h =>
    intro k hk
    rw [splitGo_eq_nil rand raw offset index h] at hk
    exact absurd hk (by simp)

theorem splitGo_nonempty_iff (rand : Nat → Nat) (raw : Bytes)
    (offset index : Nat) :
    splitGo rand raw offset index ≠ [] ↔ offset < raw.length := by
  constructor
  · intro hne
    by_contra hlt
    rw [splitGo_eq_nil rand raw offset index hlt] at hne
    exact hne rfl
  · intro h
    rw [splitGo_eq_cons rand raw offset index h]
    simp

theorem splitGo_mid_size (rand : Nat → Nat) (raw : Bytes) :
    ∀ offset index k,
      k + 1 < (splitGo rand raw offset index).length →
      FRAGMENT_MIN_SIZE ≤
          ((splitGo rand raw offset index).getD k noFragment).size
      ∧ ((splitGo rand raw offset index).getD k noFragment).size <
          FRAGMENT_MAX_SIZE := by
  intro offset index
  induction offset, index using splitGo.induct rand raw with
  | case1 offset index h size ih =>
    have hsize : size = fragSize rand raw.length offset index := rfl
    clear_value size
    subst hsize
    intro k hk
    rw [splitGo_eq_cons rand raw offset index h] at hk
    simp only [List.length_cons] at hk
    cases k with
    | zero =>
      have hlen : 0 < (splitGo rand raw
          (offset + fragSize rand raw.length offset index) (index + 1)).length := by
        omega
      have hlt : offset + fragSize rand raw.length offset index < raw.length :=
        (splitGo_nonempty_iff rand raw _ _).mp (List.length_pos.mp hlen)
      rw [splitGo_eq_cons rand raw offset index h]
      simp only [List.getD_cons_zero]
      simp only [fragSize, FRAGMENT_MIN_SIZE, FRAGMENT_MAX_SIZE] at hlt ⊢
      by_cases hcase : min 51200 (raw.length - offset) <
          min 204800 (raw.length - offset)
      · have hm := Nat.mod_lt (rand index)
          (Nat.sub_pos_of_lt hcase :
            0 < min 204800 (raw.length - offset) - min 51200 (raw.length - offset))
        simp only [if_pos hcase] at hlt ⊢
        omega
      · simp only [if_neg hcase] at hlt ⊢
        omega
    | succ k =>
      have := ih k (by omega)
      rw [splitGo_eq_cons rand raw offset index h]
      simp only [List.getD_cons_succ]
      exact this
  | case2 offset index h =>
    intro k hk
    rw [splitGo_eq_nil rand raw offset index h] at hk
    exact absurd hk (by simp)

end FragmentEngine

/-- C6: FragmentEngine.split returns contiguous, non-overlapping slices
covering the whole input in index order (their data concatenates back to the
input, index k carries fragment index k, and each data slice has the
recorded size); every fragment except possibly the last has size in
[51200, 204800); a zero-length input yields zero fragments; and a nonempty
input smaller than FRAGMENT_MIN_SIZE yields exactly one fragment equal to
the whole input. -/
theorem claim_c6 (rand : Nat → Nat) (raw : Bytes) :
    ((FragmentEngine.split rand raw).map
        FragmentEngine.RawFragment.data).flatten = raw
  ∧ (∀ k, k < (FragmentEngine.split rand raw).length →
      ((FragmentEngine.split rand raw).getD k FragmentEngine.noFragment).index
          = k
      ∧ ((FragmentEngine.split rand raw).getD k
            FragmentEngine.noFragment).data.length =
          ((FragmentEngine.split rand raw).getD k
            FragmentEngine.noFragment).size)
  ∧ (∀ k, k + 1 < (FragmentEngine.split rand raw).length →
      FragmentEngine.FRAGMENT_MIN_SIZE ≤
          ((FragmentEngine.split rand raw).getD k
            FragmentEngine.noFragment).size
      ∧ ((FragmentEngine.split rand raw).getD k
            FragmentEngine.noFragment).size <
          FragmentEngine.FRAGMENT_MAX_SIZE)
  ∧ (raw = [] → FragmentEngine.split rand raw = [])
  ∧ (0 < raw.length → raw.length < FragmentEngine.FRAGMENT_MIN_SIZE →
      FragmentEngine.split rand raw = [⟨0, raw, raw.length⟩]) := by
  unfold FragmentEngine.split
  refine ⟨?_, ?_, ?_, ?_, ?_⟩
  · exact (FragmentEngine.splitGo_join rand raw 0 0).trans (List.drop_zero raw)
  · intro k h
    have := FragmentEngine.splitGo_index_size rand raw 0 0 k h
    exact ⟨by rw [this.1]; omega, this.2⟩
  · intro k h
    exact FragmentEngine.splitGo_mid_size rand raw 0 0 k h
  · intro hraw
    exact FragmentEngine.splitGo_eq_nil rand raw 0 0 (by simp [hraw])
  · intro hpos hsmall
    have hsz : FragmentEngine.fragSize rand raw.length 0 0 = raw.length := by
      simp only [FragmentEngine.fragSize, FragmentEngine.FRAGMENT_MIN_SIZE,
        FragmentEngine.FRAGMENT_MAX_SIZE]
      simp only [FragmentEngine.FRAGMENT_MIN_SIZE] at hsmall
      split <;> omega
    rw [FragmentEngine.splitGo_eq_cons rand raw 0 0 (by omega), hsz,
      FragmentEngine.splitGo_eq_nil rand raw _ _ (by omega)]
    simp

/-- Witness for C6 at a concrete small input. -/
theorem claim_c6_witness :
    0 < ([1, 2, 3] : Bytes).length
    ∧ ([1, 2, 3] : Bytes).length < FragmentEngine.FRAGMENT_MIN_SIZE
    ∧ FragmentEngine.split (fun _ => 0) [1, 2, 3] = [⟨0, [1, 2, 3], 3⟩] :=
  ⟨by decide, by decide,
    (claim_c6 (fun _ => 0) [1, 2, 3]).2.2.2.2 (by decide) (by decide)⟩

/-! ### EphemeralKeyService (src/src/security/EphemeralKeyService.ts) -/

/-- The RuntimeEntropyBundle record.  scrollVelMicro carries the already
rounded integer Math.round(scrollVelocity * 1000) that the serialisation
writes (the claims do not depend on the float rounding itself). -/
structure RuntimeEntropyBundle where
  bootTime       : Int
  frameCounter   : Nat
  scrollVelMicro : Int
  chunkIndex     : Int
  memorySalt     : Bytes
deriving DecidableEq

/-- writeBigInt64LE: the 8 little-endian bytes of the two-complement 64-bit
value. -/
def i64le (n : Int) : Bytes :=
  (List.range 8).map (fun i => ((n % (2 : Int) ^ 64).toNat >>> (8 * i)) % 256)

/-- The fixed-width serialisation of the entropy bundle:
bootTime ∥ frameCounter ∥ round(velocity*1000) ∥ chunkIndex as i64-LE,
then the memory salt. -/
def serializeEntropy (e : RuntimeEntropyBundle) : Bytes :=
  i64le e.bootTime ++ i64le (e.frameCounter : Int) ++ i64le e.scrollVelMicro ++
    i64le e.chunkIndex ++ e.memorySalt

namespace EphemeralKeyService

/-- EphemeralKeyService.SALT_LEN. -/
def SALT_LEN : Nat := 16
/-- EphemeralKeyService.KEY_LEN. -/
def KEY_LEN : Nat := 32

/-- EphemeralKeyService.deriveEphemeralKey through the bridge:
NativeCrypto.hkdf with ikm = chapterRootKey, salt = serialize(entropy),
info = "runtime-ephemeral", outLen = 32; none models the HKDF_FAILED
rejection when the native okm malloc fails. -/
def deriveEphemeralKey (ossl : OpenSSL) (allocOk : Bool)
    (chapterRootKey : Bytes) (entropy : RuntimeEntropyBundle) :
    Option Bytes :=
  nativeHKDF ossl allocOk chapterRootKey (serializeEntropy entropy)
    (strBytes "runtime-ephemeral") KEY_LEN

/-- EphemeralKeyService.buildBundle.  The private _memorySalt field is the
first argument; when it is null the source uses new Uint8Array(SALT_LEN),
i.e. 16 zero bytes, and generates no randomness. -/
def buildBundle (memorySaltState : Option Bytes) (frameCounter : Nat)
    (scrollVelMicro : Int) (chunkIndex : Int) (bootTime : Int) :
    RuntimeEntropyBundle :=
  { bootTime := bootTime
    frameCounter := frameCounter
    scrollVelMicro := scrollVelMicro
    chunkIndex := chunkIndex
    memorySalt :=
      match memorySaltState with
      | some s => s
      | none => List.replicate SALT_LEN 0 }

end EphemeralKeyService

/-- Modelled from the spec: DisplayMutation.applyMutation — the module
./DisplayMutation that the VirtualDecryptor source imports is not among the
repository files.  Spec 4.11 fixes a reversible XOR stream over the
plaintext keyed by the ephemeral key, with a deterministic keystream
derived from the ephemeral key by HKDF-Expand to the plaintext length
(realised here with the embedded HKDF). -/
def DisplayMutation.applyMutation (ossl : OpenSSL)
    (data ephemeralKey : Bytes) : Bytes :=
  (data.zip (hkdfOkm ossl ephemeralKey [] (strBytes "display-mutate")
      data.length)).map
    (fun p => (p.1 ^^^ p.2) % 256)

/-! ### VirtualDecryptor (src/unnamed/part_004) -/

/-- The seven abstract program steps of VirtualDecryptor. -/
inductive ProgramStep where
  | hmacVerifyStep
  | realDecrypt
  | canaryCheckStep
  | ephemeralDerive
  | displayMutate
  | decoyInject
  | dummySpin
deriving DecidableEq

namespace VirtualDecryptor

/-- The five real steps in their fixed source order. -/
def realSteps : List ProgramStep :=
  [.hmacVerifyStep, .realDecrypt, .canaryCheckStep, .ephemeralDerive,
    .displayMutate]

/-- steps.splice(pos, 0, s): insert s at position pos. -/
def insertAt (l : List ProgramStep) (pos : Nat) (s : ProgramStep) :
    List ProgramStep :=
  l.take pos ++ s :: l.drop pos

/-- Insert count copies of s, each at Math.floor(Math.random() *
(steps.length + 1)) — modelled as rand k % (length + 1) for an arbitrary
oracle, consuming oracle indices from k on.  Returns the next unused oracle
index and the new list. -/
def spliceRand (rand : Nat → Nat) :
    Nat → Nat → ProgramStep → List ProgramStep → Nat × List ProgramStep
  | k, 0, _, l => (k, l)
  | k, n + 1, s, l =>
    spliceRand rand (k + 1) n s (insertAt l (rand k % (l.length + 1)) s)

/-- VirtualDecryptor.buildProgram: start from the five real steps, splice in
2 + (rand % 3) decoy injections, then 1 + (rand % 3) dummy spins, each at a
random position. -/
def buildProgram (rand : Nat → Nat) : List ProgramStep :=
  let decoyCount := 2 + rand 0 % 3
  let p1 := spliceRand rand 1 decoyCount .decoyInject realSteps
  let dummyCount := 1 + rand p1.1 % 3
  (spliceRand rand (p1.1 + 1) dummyCount .dummySpin p1.2).2

theorem insertAt_count (l : List ProgramStep) (pos : Nat) (s t : ProgramStep) :
    (insertAt l pos s).count t = l.count t + if t = s then 1 else 0 := by
  unfold insertAt
  have hl : l.count t = (l.take pos).count t + (l.drop pos).count t := by
    conv_lhs => rw [← List.take_append_drop pos l]
    rw [List.count_append]
  rw [List.count_append, List.count_cons, hl]
  by_cases h : t = s
  · subst h
    simp only [beq_self_eq_true, if_true, ite_true]
    omega
  · have hbeq : (s == t) = false := by simpa using Ne.symm h
    rw [if_neg h]
    simp only [hbeq, Bool.false_eq_true, if_false, ite_false]
    omega

theorem sublist_insertAt (l : List ProgramStep) (pos : Nat) (s : ProgramStep) :
    l.Sublist (insertAt l pos s) := by
  unfold insertAt
  conv_lhs => rw [← List.take_append_drop pos l]
  exact List.Sublist.append_left (List.sublist_cons_self s _) _

theorem spliceRand_count_self (rand : Nat → Nat) (s : ProgramStep) :
    ∀ (n k : Nat) (l : List ProgramStep),
      ((spliceRand rand k n s l).2).count s = l.count s + n := by
  intro n
  induction n with
  | zero => intro k l; rfl
  | succ n ih =>
    intro k l
    rw [spliceRand, ih]
    rw [insertAt_count, if_pos rfl]
    omega

theorem spliceRand_count_ne (rand : Nat → Nat) (s t : ProgramStep)
    (h : t ≠ s) :
    ∀ (n k : Nat) (l : List ProgramStep),
      ((spliceRand rand k n s l).2).count t = l.count t := by
  intro n
  induction n with
  | zero => intro k l; rfl
  | succ n ih =>
    intro k l
    rw [spliceRand, ih, insertAt_count, if_neg h]
    omega

theorem spliceRand_sublist (rand : Nat → Nat) (s : ProgramStep)
    (sub : List ProgramStep) :
    ∀ (n k : Nat) (l : List ProgramStep),
      sub.Sublist l → sub.Sublist (spliceRand rand k n s l).2 := by
  intro n
  induction n with
  | zero => intro k l h; exact h
  | succ n ih =>
    intro k l h
    rw [spliceRand]
    exact ih _ _ (h.trans (sublist_insertAt _ _ _))

end VirtualDecryptor

/-! ### VirtualDecryptor.execute -/

/-- Failure modes of VirtualDecryptor.execute: a propagated decryption
error, the three explicit precondition throws, the propagated HKDF_FAILED
rejection of the ephemeral-key derive, and the terminal
ProgramIncomplete. -/
inductive ExecError where
  | decryptErr (e : DecryptError)
  | canaryBeforeDecrypt
  | ephemeralBeforeDecrypt
  | ephemeralDeriveFail
  | mutatePrereq
  | programIncomplete
deriving DecidableEq

/-- The three mutable locals of VirtualDecryptor.execute. -/
structure ExecSt where
  rawDecrypted  : Option Bytes
  ephemeralKey  : Option Bytes
  mutatedResult : Option Bytes
deriving DecidableEq

namespace VirtualDecryptor

/-- One iteration of the switch over program steps.  Decoy injections and
dummy spins have no effect on the three locals; their crypto noise is
discarded by the source. -/
def execStep (ossl : OpenSSL) (decAllocOk hkdfAllocOk : Bool)
    (ef : EncryptedFragment) (chapterRootKey hmacKey : Bytes)
    (imageId : String) (entropy : RuntimeEntropyBundle) (st : ExecSt) :
    ProgramStep → Except ExecError ExecSt
  | .hmacVerifyStep => .ok st
  | .realDecrypt =>
    match FragmentEngine.decryptFragment ossl decAllocOk hkdfAllocOk ef
        chapterRootKey hmacKey imageId with
    | .error e => .error (.decryptErr e)
    | .ok b => .ok { st with rawDecrypted := some b }
  | .canaryCheckStep =>
    if st.rawDecrypted.isNone then .error .canaryBeforeDecrypt else .ok st
  | .ephemeralDerive =>
    if st.rawDecrypted.isNone then .error .ephemeralBeforeDecrypt
    else
      match EphemeralKeyService.deriveEphemeralKey ossl hkdfAllocOk
          chapterRootKey entropy with
      | none => .error .ephemeralDeriveFail
      | some ek => .ok { st with ephemeralKey := some ek }
  | .displayMutate =>
    match st.rawDecrypted, st.ephemeralKey with
    | some raw, some ek =>
      .ok { rawDecrypted := none, ephemeralKey := none,
            mutatedResult := some (DisplayMutation.applyMutation ossl raw ek) }
    | _, _ => .error .mutatePrereq
  | .decoyInject => .ok st
  | .dummySpin => .ok st

/-- The for-loop of VirtualDecryptor.execute: run the steps in order,
aborting at the first throw. -/
def execGo (ossl : OpenSSL) (decAllocOk hkdfAllocOk : Bool)
    (ef : EncryptedFragment) (chapterRootKey hmacKey : Bytes)
    (imageId : String) (entropy : RuntimeEntropyBundle) :
    List ProgramStep → ExecSt → Except ExecError ExecSt
  | [], st => .ok st
  | s :: rest, st =>
    match execStep ossl decAllocOk hkdfAllocOk ef chapterRootKey hmacKey
        imageId entropy st s with
    | .error e => .error e
    | .ok st2 =>
      execGo ossl decAllocOk hkdfAllocOk ef chapterRootKey hmacKey imageId
        entropy rest st2

/-- VirtualDecryptor.execute: run the program from empty locals; if the loop
finishes without mutatedResult set, fail with ProgramIncomplete. -/
def execute (ossl : OpenSSL) (decAllocOk hkdfAllocOk : Bool)
    (program : List ProgramStep) (ef : EncryptedFragment)
    (chapterRootKey hmacKey : Bytes) (imageId : String)
    (entropy : RuntimeEntropyBundle) : Except ExecError Bytes :=
  match execGo ossl decAllocOk hkdfAllocOk ef chapterRootKey hmacKey imageId
      entropy program ⟨none, none, none⟩ with
  | .error e => .error e
  | .ok st =>
    match st.mutatedResult with
    | some m => .ok m
    | none => .error .programIncomplete

end VirtualDecryptor

namespace VirtualDecryptor

theorem buildProgram_count_other (rand : Nat → Nat) (t : ProgramStep)
    (h1 : t ≠ .decoyInject) (h2 : t ≠ .dummySpin) :
    (buildProgram rand).count t = realSteps.count t := by
  simp only [buildProgram]
  rw [spliceRand_count_ne rand _ _ h2, spliceRand_count_ne rand _ _ h1]

theorem buildProgram_count_decoy (rand : Nat → Nat) :
    (buildProgram rand).count .decoyInject = 2 + rand 0 % 3 := by
  simp only [buildProgram]
  rw [spliceRand_count_ne rand _ _ (by decide), spliceRand_count_self]
  have h0 : realSteps.count ProgramStep.decoyInject = 0 := by decide
  omega

theorem buildProgram_dummy_bounds (rand : Nat → Nat) :
    1 ≤ (buildProgram rand).count .dummySpin
    ∧ (buildProgram rand).count .dummySpin ≤ 3 := by
  simp only [buildProgram]
  rw [spliceRand_count_self, spliceRand_count_ne rand _ _ (by decide)]
  have h0 : realSteps.count ProgramStep.dummySpin = 0 := by decide
  have hm := Nat.mod_lt (rand (spliceRand rand 1 (2 + rand 0 % 3)
    ProgramStep.decoyInject realSteps).1) (show 0 < 3 by decide)
  omega

theorem realSteps_sublist_buildProgram (rand : Nat → Nat) :
    realSteps.Sublist (buildProgram rand) := by
  simp only [buildProgram]
  exact spliceRand_sublist rand _ _ _ _ _
    (spliceRand_sublist rand _ _ _ _ _ (List.Sublist.refl _))

end VirtualDecryptor

/-- C7 (amended): buildProgram emits exactly one occurrence of each of the
five real steps, in their fixed relative order, plus 2 to 4 decoy
injections and 1 to 3 dummy spins at arbitrary positions; and execute never
returns bytes unless DISPLAY_MUTATE completed: when the step loop finishes
without a mutated result it fails with ProgramIncomplete, when a step
throws the execution fails with that step's own error (not
ProgramIncomplete), and a successful execute implies the loop finished with
the mutated result set. -/
theorem claim_c7_amended (rand : Nat → Nat) :
    ((VirtualDecryptor.buildProgram rand).count ProgramStep.hmacVerifyStep = 1
  ∧ (VirtualDecryptor.buildProgram rand).count ProgramStep.realDecrypt = 1
  ∧ (VirtualDecryptor.buildProgram rand).count ProgramStep.canaryCheckStep = 1
  ∧ (VirtualDecryptor.buildProgram rand).count ProgramStep.ephemeralDerive = 1
  ∧ (VirtualDecryptor.buildProgram rand).count ProgramStep.displayMutate = 1
  ∧ VirtualDecryptor.realSteps.Sublist (VirtualDecryptor.buildProgram rand)
  ∧ 2 ≤ (VirtualDecryptor.buildProgram rand).count ProgramStep.decoyInject
  ∧ (VirtualDecryptor.buildProgram rand).count ProgramStep.decoyInject ≤ 4
  ∧ 1 ≤ (VirtualDecryptor.buildProgram rand).count ProgramStep.dummySpin
  ∧ (VirtualDecryptor.buildProgram rand).count ProgramStep.dummySpin ≤ 3)
  ∧ (∀ (ossl : OpenSSL) (dA hA : Bool) (prog : List ProgramStep)
      (ef : EncryptedFragment) (crk hk : Bytes) (imageId : String)
      (entropy : RuntimeEntropyBundle) (st : ExecSt),
      VirtualDecryptor.execGo ossl dA hA ef crk hk imageId entropy prog
          ⟨none, none, none⟩ = .ok st →
      st.mutatedResult = none →
      VirtualDecryptor.execute ossl dA hA prog ef crk hk imageId entropy =
        .error .programIncomplete)
  ∧ (∀ (ossl : OpenSSL) (dA hA : Bool) (prog : List ProgramStep)
      (ef : EncryptedFragment) (crk hk : Bytes) (imageId : String)
      (entropy : RuntimeEntropyBundle) (e : ExecError),
      VirtualDecryptor.execGo ossl dA hA ef crk hk imageId entropy prog
          ⟨none, none, none⟩ = .error e →
      VirtualDecryptor.execute ossl dA hA prog ef crk hk imageId entropy =
        .error e)
  ∧ (∀ (ossl : OpenSSL) (dA hA : Bool) (prog : List ProgramStep)
      (ef : EncryptedFragment) (crk hk : Bytes) (imageId : String)
      (entropy : RuntimeEntropyBundle) (m : Bytes),
      VirtualDecryptor.execute ossl dA hA prog ef crk hk imageId entropy =
        .ok m →
      ∃ st : ExecSt,
        VirtualDecryptor.execGo ossl dA hA ef crk hk imageId entropy prog
            ⟨none, none, none⟩ = .ok st
        ∧ st.mutatedResult = some m) := by
  refine ⟨?_, ?_, ?_, ?_⟩
  · have hdecoy := VirtualDecryptor.buildProgram_count_decoy rand
    have hdummy := VirtualDecryptor.buildProgram_dummy_bounds rand
    have hmod := Nat.mod_lt (rand 0) (show 0 < 3 by decide)
    refine ⟨?_, ?_, ?_, ?_, ?_,
      VirtualDecryptor.realSteps_sublist_buildProgram rand,
      by omega, by omega, hdummy.1, hdummy.2⟩
    all_goals
      rw [VirtualDecryptor.buildProgram_count_other rand _ (by decide) (by decide)]
    all_goals decide
  · intro ossl dA hA prog ef crk hk imageId entropy st hgo hmut
    unfold VirtualDecryptor.execute
    rw [hgo]
    simp [hmut]
  · intro ossl dA hA prog ef crk hk imageId entropy e hgo
    unfold VirtualDecryptor.execute
    rw [hgo]
  · intro ossl dA hA prog ef crk hk imageId entropy m hok
    unfold VirtualDecryptor.execute at hok
    cases hgo : VirtualDecryptor.execGo ossl dA hA ef crk hk imageId entropy
        prog ⟨none, none, none⟩ with
    | error e => simp [hgo] at hok
    | ok st =>
      simp only [hgo] at hok
      cases hmut : st.mutatedResult with
      | none => simp [hmut] at hok
      | some m2 =>
        simp only [hmut] at hok
        cases hok
        exact ⟨st, rfl, hmut⟩

/-- Witness for the amended C7: a program whose loop completes without a
DISPLAY_MUTATE step fails with ProgramIncomplete. -/
theorem claim_c7_amended_witness :
    VirtualDecryptor.execute osslModel true true [ProgramStep.hmacVerifyStep]
      ⟨0, [], ("x", 0), [], 0⟩ [1] [2] "x" ⟨0, 0, 0, 0, []⟩ =
      .error .programIncomplete :=
  (claim_c7_amended (fun _ => 0)).2.1 osslModel true true
    [ProgramStep.hmacVerifyStep] ⟨0, [], ("x", 0), [], 0⟩ [1] [2] "x"
    ⟨0, 0, 0, 0, []⟩ ⟨none, none, none⟩ rfl rfl

/-- C7 counterexample: for the oracle that always draws 0, buildProgram
contains the DISPLAY_MUTATE step, yet on a fragment whose stored hmac is
wrong the execution fails with the propagated IntegrityFail — DISPLAY_MUTATE
does not complete and the error is not ProgramIncomplete. -/
theorem claim_c7_counterexample :
    (VirtualDecryptor.buildProgram (fun _ => 0)).count
        ProgramStep.displayMutate = 1
    ∧ VirtualDecryptor.execute osslModel true true
        (VirtualDecryptor.buildProgram (fun _ => 0))
        ⟨0, [], ("x", 0), [], 0⟩ [1] [2] "x" ⟨0, 0, 0, 0, []⟩ =
      .error (.decryptErr .integrityFail)
    ∧ ExecError.decryptErr DecryptError.integrityFail ≠
        ExecError.programIncomplete := by
  refine ⟨by decide, by rfl, by decide⟩

/-- C10: EphemeralKeyService.buildBundle called with no session memory salt
initialised does not fail and draws no randomness (the model of this path
takes no randomness oracle): it returns a bundle whose memorySalt is 16
zero bytes, so the ephemeral key derived from that bundle via the native
HKDF is a function of the chapter root key and the four non-random entropy
fields alone. -/
theorem claim_c10 (ossl : OpenSSL) (hkdfAllocOk : Bool) (frameCounter : Nat)
    (scrollVelMicro chunkIndex bootTime : Int) (chapterRootKey : Bytes) :
    (EphemeralKeyService.buildBundle none frameCounter scrollVelMicro
        chunkIndex bootTime).memorySalt = List.replicate 16 0
    ∧ EphemeralKeyService.deriveEphemeralKey ossl hkdfAllocOk chapterRootKey
        (EphemeralKeyService.buildBundle none frameCounter scrollVelMicro
          chunkIndex bootTime)
      = nativeHKDF ossl hkdfAllocOk chapterRootKey
          (i64le bootTime ++ i64le (frameCounter : Int) ++
            i64le scrollVelMicro ++ i64le chunkIndex ++ List.replicate 16 0)
          (strBytes "runtime-ephemeral") 32 :=
  ⟨rfl, rfl⟩

/-! ### random_bytes bounds (crypto_core nativeRandomBytes, the Kotlin
bridge randomBytes, and CryptoEngine.randomBytes) -/

/-- NativeCryptoModule.randomBytes (Kotlin bridge): resolve with the Base64
of the returned bytes, or reject with RAND_FAILED when the native layer
returns null — on the out-of-bounds check, the buffer malloc, or the
RAND_bytes failure alike. -/
def NativeCryptoModule.randomBytes (allocOk randOk : Bool)
    (rand : Nat → Nat) (n : Int) : Except String Bytes :=
  match nativeRandomBytes allocOk randOk rand n with
  | some bs => .ok bs
  | none => .error "RAND_FAILED"

/-- CryptoEngine.randomBytes: Base64-decode the bridge result (identity in
the byte model). -/
def CryptoEngine.randomBytes (allocOk randOk : Bool) (rand : Nat → Nat)
    (n : Int) : Except String Bytes :=
  NativeCryptoModule.randomBytes allocOk randOk rand n

/-- C8: random_bytes rejects every n with n ≤ 0 or n > 4096 with an error
and produces no bytes, whatever the malloc and RNG outcomes; for
1 ≤ n ≤ 4096, when the buffer malloc and the RAND_bytes call succeed it
returns exactly n bytes; and every successful return carries exactly n
bytes with n in bounds (the in-bounds malloc/RNG failures return the same
RAND_FAILED rejection, never bytes). -/
theorem claim_c8 (allocOk randOk : Bool) (rand : Nat → Nat) (n : Int) :
    (n ≤ 0 ∨ n > 4096 →
      CryptoEngine.randomBytes allocOk randOk rand n = .error "RAND_FAILED")
    ∧ (1 ≤ n → n ≤ 4096 → allocOk = true → randOk = true →
      ∃ bs : Bytes,
        CryptoEngine.randomBytes allocOk randOk rand n = .ok bs
        ∧ bs.length = n.toNat)
    ∧ (∀ bs : Bytes,
        CryptoEngine.randomBytes allocOk randOk rand n = .ok bs →
        bs.length = n.toNat ∧ 1 ≤ n ∧ n ≤ 4096) := by
  refine ⟨?_, ?_, ?_⟩
  · intro h
    unfold CryptoEngine.randomBytes NativeCryptoModule.randomBytes
      nativeRandomBytes
    rw [if_pos h]
  · intro h1 h2 hA hR
    subst hA
    subst hR
    refine ⟨(List.range n.toNat).map (fun i => rand i % 256), ?_, by simp⟩
    unfold CryptoEngine.randomBytes NativeCryptoModule.randomBytes
      nativeRandomBytes
    rw [if_neg (by omega), if_pos rfl, if_pos rfl]
  · intro bs h
    unfold CryptoEngine.randomBytes NativeCryptoModule.randomBytes
      nativeRandomBytes at h
    by_cases hb : n ≤ 0 ∨ n > 4096
    · rw [if_pos hb] at h
      exact absurd h (by simp)
    · rw [if_neg hb] at h
      cases allocOk with
      | false => exact absurd h (by simp)
      | true =>
        cases randOk with
        | false => exact absurd h (by simp)
        | true =>
          rw [if_pos rfl, if_pos rfl] at h
          simp only [Except.ok.injEq] at h
          subst h
          refine ⟨by simp, by omega, by omega⟩

/-- Witness for C8 at n = 5000 (rejected) and n = 16 (accepted with
working malloc and RNG). -/
theorem claim_c8_witness :
    CryptoEngine.randomBytes true true (fun _ => 7) 5000 =
      .error "RAND_FAILED"
    ∧ ∃ bs : Bytes,
        CryptoEngine.randomBytes true true (fun _ => 7) 16 = .ok bs
        ∧ bs.length = (16 : Int).toNat :=
  ⟨(claim_c8 true true (fun _ => 7) 5000).1 (Or.inr (by decide)),
   (claim_c8 true true (fun _ => 7) 16).2.1 (by decide) (by decide) rfl rfl⟩

/-! ### FridaDetector (src/src/security/FridaDetector.ts) -/

namespace FridaDetector

/-- FridaDetector.THROTTLE_MS. -/
def THROTTLE_MS : Int := 8000

/-- Environment snapshot: which of the four detection vectors would report
a positive at this instant. -/
structure Env where
  globalsPolluted  : Bool
  protosTampered   : Bool
  builtinsTampered : Bool
  timingAnomalous  : Bool
deriving DecidableEq

/-- The disjunction of the four vectors, in source order. -/
def envDetects (e : Env) : Bool :=
  e.globalsPolluted || e.protosTampered || e.builtinsTampered ||
    e.timingAnomalous

/-- FridaDetector.detect as a function of the private _lastCheck state and
the clock: returns (result, whether the detection vectors were evaluated,
updated _lastCheck).  A throttled call does not update _lastCheck. -/
def detect (lastCheck now : Int) (env : Env) : Bool × Bool × Int :=
  if now - lastCheck < THROTTLE_MS then (false, false, lastCheck)
  else (envDetects env, true, now)

end FridaDetector

/-- C9 counterexample: after an unthrottled call at t=100000, a throttled
call at t=107000 and a call at t=109000 start less than 8000 ms apart, yet
the later of the two evaluates its vectors and returns true in a hostile
environment — the throttled call did not refresh the window. -/
theorem claim_c9_counterexample :
    (109000 : Int) - 107000 < 8000
    ∧ FridaDetector.detect 0 100000 ⟨false, false, false, false⟩ =
        (false, true, 100000)
    ∧ FridaDetector.detect 100000 107000 ⟨true, true, true, true⟩ =
        (false, false, 100000)
    ∧ FridaDetector.detect 100000 109000 ⟨true, true, true, true⟩ =
        (true, true, 109000) := by
  refine ⟨by decide, by decide, by decide, by decide⟩

/-- C9 (amended): a detect call made less than 8000 ms after the call that
last updated the throttle timestamp returns false without evaluating any
detection vector and leaves the timestamp unchanged; in particular this
holds for the call right after an unthrottled call.  Calls that were
themselves throttled do not refresh the window. -/
theorem claim_c9_amended (lastCheck now : Int) (env : FridaDetector.Env) :
    (now - lastCheck < 8000 →
      FridaDetector.detect lastCheck now env = (false, false, lastCheck))
    ∧ (∀ (t1 t2 : Int) (env1 env2 : FridaDetector.Env),
        (FridaDetector.detect lastCheck t1 env1).2.1 = true →
        t2 - t1 < 8000 →
        FridaDetector.detect (FridaDetector.detect lastCheck t1 env1).2.2
          t2 env2 = (false, false, t1)) := by
  constructor
  · intro h
    unfold FridaDetector.detect
    rw [if_pos (show now - lastCheck < FridaDetector.THROTTLE_MS from h)]
  · intro t1 t2 env1 env2 hev h12
    by_cases hth : t1 - lastCheck < FridaDetector.THROTTLE_MS
    · exfalso
      unfold FridaDetector.detect at hev
      rw [if_pos hth] at hev
      simp at hev
    · have hinner : FridaDetector.detect lastCheck t1 env1 =
          (FridaDetector.envDetects env1, true, t1) := by
        unfold FridaDetector.detect
        rw [if_neg hth]
      rw [hinner]
      unfold FridaDetector.detect
      rw [if_pos (show t2 - t1 < FridaDetector.THROTTLE_MS from h12)]

/-- Witness for the amended C9: the throttled call at t=7000 from the
counterexample trace returns false without evaluating vectors. -/
theorem claim_c9_amended_witness :
    FridaDetector.detect 100000 107000 ⟨true, true, true, true⟩ =
      (false, false, 100000) :=
  (claim_c9_amended 100000 107000 ⟨true, true, true, true⟩).1 (by decide)

/-! ### SecurityOrchestrator.handleViolation (src/src/core/LifecycleManager.ts,
SecurityOrchestrator) -/

namespace SecurityOrchestrator

/-- The reentrancy flag together with run counters for the three destructive
steps (device-salt destruction attempts, memory-salt wipes, runtime-entropy
wipes). -/
structure OrchState where
  violationInProgress : Bool
  saltDestroyRuns     : Nat
  memorySaltWipes     : Nat
  entropyWipes        : Nat
deriving DecidableEq

/-- SecurityOrchestrator.handleViolation.  A repeated invocation returns at
the guard with a bare SECURITY_VIOLATION error.  The first invocation
attempts salt destruction under Promise.allSettled — saltDestroyFails models
a failing credential-store deletion, which is absorbed — then runs the two
infallible wipes, and throws the composed identifier string.  The returned
string is the message of the thrown error. -/
def handleViolation (st : OrchState) (reason : String) (nowMs : Int)
    (saltDestroyFails : Bool) : OrchState × String :=
  if st.violationInProgress then
    (st, "SECURITY_VIOLATION")
  else
    ({ violationInProgress := true
       saltDestroyRuns := st.saltDestroyRuns + 1
       memorySaltWipes := st.memorySaltWipes + 1
       entropyWipes := st.entropyWipes + 1 },
     "SECURITY_VIOLATION:" ++ reason ++ ":" ++ toString nowMs)

end SecurityOrchestrator

/-- C5 counterexample: the second invocation does not return the same
terminal error as the first — the first throws
SECURITY_VIOLATION:frida:5, the second throws the bare SECURITY_VIOLATION
without reason or timestamp. -/
theorem claim_c5_counterexample :
    (SecurityOrchestrator.handleViolation ⟨false, 0, 0, 0⟩ "frida" 5 false).2
        = "SECURITY_VIOLATION:frida:5"
    ∧ (SecurityOrchestrator.handleViolation
        (SecurityOrchestrator.handleViolation ⟨false, 0, 0, 0⟩ "frida" 5
          false).1 "frida" 6 false).2 = "SECURITY_VIOLATION"
    ∧ "SECURITY_VIOLATION" ≠ "SECURITY_VIOLATION:frida:5" := by
  refine ⟨by decide, by decide, by decide⟩

/-- C5 (amended): handleViolation is one-shot and reentrancy-guarded: the
first invocation runs all three destructive steps — salt destruction is
attempted and its failure absorbed, and both wipes run regardless — and
throws SECURITY_VIOLATION:<reason>:<epoch ms>; every subsequent invocation
throws a bare SECURITY_VIOLATION error (not the first invocation's message)
and re-runs none of the destructive steps. -/
theorem claim_c5_amended (reason : String) (nowMs : Int) (fails : Bool)
    (st : SecurityOrchestrator.OrchState) :
    (st.violationInProgress = false →
      SecurityOrchestrator.handleViolation st reason nowMs fails =
        (⟨true, st.saltDestroyRuns + 1, st.memorySaltWipes + 1,
            st.entropyWipes + 1⟩,
         "SECURITY_VIOLATION:" ++ reason ++ ":" ++ toString nowMs))
    ∧ (st.violationInProgress = true →
      SecurityOrchestrator.handleViolation st reason nowMs fails =
        (st, "SECURITY_VIOLATION"))
    ∧ (∀ (r2 : String) (t2 : Int) (f2 : Bool),
        SecurityOrchestrator.handleViolation
          (SecurityOrchestrator.handleViolation st reason nowMs fails).1
          r2 t2 f2 =
        ((SecurityOrchestrator.handleViolation st reason nowMs fails).1,
          "SECURITY_VIOLATION")) := by
  refine ⟨?_, ?_, ?_⟩
  · intro h
    unfold SecurityOrchestrator.handleViolation
    rw [if_neg (by simp [h])]
  · intro h
    unfold SecurityOrchestrator.handleViolation
    rw [if_pos h]
  · intro r2 t2 f2
    unfold SecurityOrchestrator.handleViolation
    by_cases h : st.violationInProgress
    · rw [if_pos h, if_pos h]
    · rw [if_neg h, if_pos rfl]

/-- Witness for the amended C5: a first call with a failing salt destruction
still runs every step and throws the composed identifier; the repeated call
changes nothing and throws the bare identifier. -/
theorem claim_c5_amended_witness :
    SecurityOrchestrator.handleViolation ⟨false, 0, 0, 0⟩ "frida" 5 true =
      (⟨true, 1, 1, 1⟩, "SECURITY_VIOLATION:frida:5")
    ∧ SecurityOrchestrator.handleViolation ⟨true, 1, 1, 1⟩ "frida" 6 false =
      (⟨true, 1, 1, 1⟩, "SECURITY_VIOLATION") :=
  ⟨((claim_c5_amended "frida" 5 true ⟨false, 0, 0, 0⟩).1 rfl).trans
      (by decide),
   (claim_c5_amended "frida" 6 false ⟨true, 1, 1, 1⟩).2.1 rfl⟩

/-! ### KeyRotationService (src/src/security/KeyRotationService.ts) -/

/-- The WrappedChapterKey record; wrappedB64 holds the Base64-decoded
AES-GCM wire bytes of the wrapped chapter root key (Base64 is
injective). -/
structure WrappedChapterKey where
  wrappedB64        : Bytes
  rotationTimestamp : Int
  version           : Nat
deriving DecidableEq

namespace KeyRotationService

/-- CRYPTO_CONSTANTS.KEY_ROTATION_INTERVAL_MS (7 days). -/
def KEY_ROTATION_INTERVAL_MS : Int := 7 * 24 * 60 * 60 * 1000

/-- deriveWrappingKey through the bridge: NativeCrypto.hkdf with
ikm = rootSecret, salt = UTF8("wrap:" ++ chapterId ++ ":" ++ version),
info = "chapter-key-wrap", outLen = 32; none models the HKDF_FAILED
rejection. -/
def deriveWrappingKey (ossl : OpenSSL) (hkdfAllocOk : Bool)
    (rootSecret : Bytes) (chapterId : String) (version : Nat) :
    Option Bytes :=
  nativeHKDF ossl hkdfAllocOk rootSecret
    (strBytes ("wrap:" ++ chapterId ++ ":" ++ toString version))
    (strBytes "chapter-key-wrap") 32

/-- wrapChapterKey: AES-GCM-encrypt the chapter root key under the
version-specific wrapping key with no AAD; rotationTimestamp is Date.now().
none models the thrown bridge rejections (HKDF_FAILED / AES_ENC_FAILED). -/
def wrapChapterKey (ossl : OpenSSL) (ivRand : Nat → Nat)
    (hkdfAllocOk : Bool) (chapterRootKey rootSecret : Bytes)
    (chapterId : String) (version : Nat) (nowMs : Int) :
    Option WrappedChapterKey :=
  match deriveWrappingKey ossl hkdfAllocOk rootSecret chapterId version with
  | none => none
  | some wrappingKey =>
    match nativeAESGCMEncrypt ossl ivRand wrappingKey chapterRootKey
        none with
    | none => none
    | some blob =>
      some { wrappedB64 := blob, rotationTimestamp := nowMs,
             version := version }

/-- unwrapChapterKey: decrypt with the wrapping key derived at the
envelope's stored version; none models the UnwrapFail throw when the
native decrypt returns null (tag mismatch, key/blob length, plaintext
malloc), and the propagated HKDF_FAILED of the wrapping-key derive. -/
def unwrapChapterKey (ossl : OpenSSL) (hkdfAllocOk decAllocOk : Bool)
    (wrapped : WrappedChapterKey) (rootSecret : Bytes)
    (chapterId : String) : Option Bytes :=
  match deriveWrappingKey ossl hkdfAllocOk rootSecret chapterId
      wrapped.version with
  | none => none
  | some wrappingKey =>
    nativeAESGCMDecrypt ossl decAllocOk wrappingKey wrapped.wrappedB64 none

/-- rotateWrappedKey: unwrap, then rewrap at version + 1. -/
def rotateWrappedKey (ossl : OpenSSL) (ivRand : Nat → Nat)
    (hkdfAllocOk decAllocOk : Bool) (wrapped : WrappedChapterKey)
    (rootSecret : Bytes) (chapterId : String) (nowMs : Int) :
    Option WrappedChapterKey :=
  match unwrapChapterKey ossl hkdfAllocOk decAllocOk wrapped rootSecret
      chapterId with
  | none => none
  | some chapterRootKey =>
    wrapChapterKey ossl ivRand hkdfAllocOk chapterRootKey rootSecret
      chapterId (wrapped.version + 1) nowMs

/-- isRotationDue: true when no timestamp is stored or 7 days have
passed. -/
def isRotationDue (storedTs : Option Int) (nowMs : Int) : Bool :=
  match storedTs with
  | none => true
  | some ts => decide (nowMs - ts ≥ KEY_ROTATION_INTERVAL_MS)

end KeyRotationService

theorem wrapChapterKey_spec (ossl : OpenSSL) (ivRand : Nat → Nat)
    (k root : Bytes) (chapterId : String) (v : Nat) (now : Int) :
    ∃ w : WrappedChapterKey,
      KeyRotationService.wrapChapterKey ossl ivRand true k root chapterId v
          now = some w
      ∧ w.version = v
      ∧ KeyRotationService.unwrapChapterKey ossl true true w root chapterId
        = some k := by
  have hlen : (hkdfOkm ossl root
      (strBytes ("wrap:" ++ chapterId ++ ":" ++ toString v))
      (strBytes "chapter-key-wrap") 32).length = 32 :=
    hkdfOkm_length ossl root _ _ 32
  have henc := nativeAESGCMEncrypt_eq ossl ivRand
    (hkdfOkm ossl root (strBytes ("wrap:" ++ chapterId ++ ":" ++ toString v))
      (strBytes "chapter-key-wrap") 32) k none hlen
  have hdec := native_gcm_roundtrip ossl ivRand
    (hkdfOkm ossl root (strBytes ("wrap:" ++ chapterId ++ ":" ++ toString v))
      (strBytes "chapter-key-wrap") 32) k none hlen
  refine ⟨⟨gcmIv ivRand ++
      ossl.gcmXor (hkdfOkm ossl root
        (strBytes ("wrap:" ++ chapterId ++ ":" ++ toString v))
        (strBytes "chapter-key-wrap") 32) (gcmIv ivRand) k ++
      ossl.gcmTag (hkdfOkm ossl root
        (strBytes ("wrap:" ++ chapterId ++ ":" ++ toString v))
        (strBytes "chapter-key-wrap") 32) (gcmIv ivRand) (aadFeed none)
        (ossl.gcmXor (hkdfOkm ossl root
          (strBytes ("wrap:" ++ chapterId ++ ":" ++ toString v))
          (strBytes "chapter-key-wrap") 32) (gcmIv ivRand) k),
      now, v⟩, ?_, rfl, ?_⟩
  · rw [KeyRotationService.wrapChapterKey]
    simp only [show KeyRotationService.deriveWrappingKey ossl true root
        chapterId v = some (hkdfOkm ossl root
          (strBytes ("wrap:" ++ chapterId ++ ":" ++ toString v))
          (strBytes "chapter-key-wrap") 32) from rfl, henc]
  · rw [KeyRotationService.unwrapChapterKey]
    simp only [show KeyRotationService.deriveWrappingKey ossl true root
        chapterId v = some (hkdfOkm ossl root
          (strBytes ("wrap:" ++ chapterId ++ ":" ++ toString v))
          (strBytes "chapter-key-wrap") 32) from rfl]
    exact hdec

theorem rotateWrappedKey_of_unwrap (ossl : OpenSSL) (ivRand2 : Nat → Nat)
    (w : WrappedChapterKey) (root : Bytes) (chapterId : String)
    (now2 : Int) (k : Bytes)
    (hunw : KeyRotationService.unwrapChapterKey ossl true true w root
      chapterId = some k) :
    KeyRotationService.rotateWrappedKey ossl ivRand2 true true w root
        chapterId now2 =
      KeyRotationService.wrapChapterKey ossl ivRand2 true k root chapterId
        (w.version + 1) now2 := by
  rw [KeyRotationService.rotateWrappedKey, hunw]

/-! ### Persisted state and ChapterRepository.rotateKeyIfDue
(src/src/storage/ChapterRepository.ts, MetadataStore.ts,
SecureFileStorage.ts) -/

/-- The persisted state rotation can touch: fragment files under the vault
root .ls_v (path → stored Base64 text), the three kinds of metadata entries
under .ls_m (their filenames hash the distinct key prefixes "meta:", "wk:"
and "cm:"; manifest and chapter-meta entries store Base64 ciphertext
text), and the SecureStore rotation timestamp.  The vault and metadata
roots are disjoint path prefixes, hence separate fields. -/
structure VaultState where
  fragmentFiles : List (String × String)
  manifestFiles : List (String × String)
  wrappedKeys   : List (String × WrappedChapterKey)
  chapterMetas  : List (String × String)
  rotationTs    : Option Int
deriving DecidableEq

namespace ChapterRepository

/-- ChapterRepository.rotateKeyIfDue: if rotation is not due, or no
wrapped-key envelope is stored, nothing is written; otherwise the rotated
envelope replaces the wrapped-key metadata entry
(MetadataStore.storeWrappedKey → SecureFileStorage.writeMeta on the
"wk:" ++ chapterId entry) and the finally block records the rotation
timestamp — also when the rewrap itself fails.  Root-secret derivation and
wiping have no persisted effect. -/
def rotateKeyIfDue (ossl : OpenSSL) (ivRand : Nat → Nat)
    (hkdfAllocOk decAllocOk : Bool) (st : VaultState) (chapterId : String)
    (rootSecret : Bytes) (nowMs : Int) : VaultState :=
  if KeyRotationService.isRotationDue st.rotationTs nowMs then
    match st.wrappedKeys.lookup ("wk:" ++ chapterId) with
    | none => st
    | some wrapped =>
      match KeyRotationService.rotateWrappedKey ossl ivRand hkdfAllocOk
          decAllocOk wrapped rootSecret chapterId nowMs with
      | none => { st with rotationTs := some nowMs }
      | some newWrapped =>
        { st with
          wrappedKeys := ("wk:" ++ chapterId, newWrapped) ::
            st.wrappedKeys.filter (fun p => p.1 != "wk:" ++ chapterId)
          rotationTs := some nowMs }
  else st

end ChapterRepository

/-- C4: wrapping a chapter key (with working derives and mallocs, under the
32-byte wrapping key nativeHKDF emits) and unwrapping it returns exactly
the key; rotateWrappedKey on an envelope wrapped at version v yields an
envelope at version v + 1 that unwraps back to the same key; and
rotateKeyIfDue never writes or modifies any stored fragment file (nor
manifests nor chapter metadata) — only the wrapped-key entry and the
rotation timestamp change, whatever the crypto outcomes. -/
theorem claim_c4 :
    (∀ (ossl : OpenSSL) (ivRand : Nat → Nat) (k root : Bytes)
        (chapterId : String) (v : Nat) (now : Int),
      (KeyRotationService.wrapChapterKey ossl ivRand true k root chapterId
          v now).bind
        (fun w => KeyRotationService.unwrapChapterKey ossl true true w root
          chapterId) = some k)
    ∧ (∀ (ossl : OpenSSL) (ivRand ivRand2 : Nat → Nat) (k root : Bytes)
        (chapterId : String) (v : Nat) (now now2 : Int),
      ((KeyRotationService.wrapChapterKey ossl ivRand true k root chapterId
          v now).bind
        (fun w => KeyRotationService.rotateWrappedKey ossl ivRand2 true
          true w root chapterId now2)).map WrappedChapterKey.version =
        some (v + 1)
      ∧ ((KeyRotationService.wrapChapterKey ossl ivRand true k root
          chapterId v now).bind
        (fun w => KeyRotationService.rotateWrappedKey ossl ivRand2 true
          true w root chapterId now2)).bind
        (fun w2 => KeyRotationService.unwrapChapterKey ossl true true w2
          root chapterId) = some k)
    ∧ (∀ (ossl : OpenSSL) (ivRand : Nat → Nat)
        (hkdfAllocOk decAllocOk : Bool) (st : VaultState)
        (chapterId : String) (root : Bytes) (now : Int),
      (ChapterRepository.rotateKeyIfDue ossl ivRand hkdfAllocOk decAllocOk
          st chapterId root now).fragmentFiles = st.fragmentFiles
      ∧ (ChapterRepository.rotateKeyIfDue ossl ivRand hkdfAllocOk decAllocOk
          st chapterId root now).manifestFiles = st.manifestFiles
      ∧ (ChapterRepository.rotateKeyIfDue ossl ivRand hkdfAllocOk decAllocOk
          st chapterId root now).chapterMetas = st.chapterMetas) := by
  refine ⟨?_, ?_, ?_⟩
  · intro ossl ivRand k root chapterId v now
    obtain ⟨w, hw, hver, hunw⟩ :=
      wrapChapterKey_spec ossl ivRand k root chapterId v now
    rw [hw]
    exact hunw
  · intro ossl ivRand ivRand2 k root chapterId v now now2
    obtain ⟨w, hw, hver, hunw⟩ :=
      wrapChapterKey_spec ossl ivRand k root chapterId v now
    obtain ⟨w2, hw2, hver2, hunw2⟩ :=
      wrapChapterKey_spec ossl ivRand2 k root chapterId (v + 1) now2
    have hrot : KeyRotationService.rotateWrappedKey ossl ivRand2 true true
        w root chapterId now2 = some w2 := by
      rw [rotateWrappedKey_of_unwrap ossl ivRand2 w root chapterId now2 k
        hunw, hver, hw2]
    constructor
    · rw [hw]
      show (KeyRotationService.rotateWrappedKey ossl ivRand2 true true w
          root chapterId now2).map WrappedChapterKey.version = some (v + 1)
      rw [hrot]
      simp [hver2]
    · rw [hw]
      show (KeyRotationService.rotateWrappedKey ossl ivRand2 true true w
          root chapterId now2).bind
        (fun w2 => KeyRotationService.unwrapChapterKey ossl true true w2
          root chapterId) = some k
      rw [hrot]
      exact hunw2
  · intro ossl ivRand hkdfAllocOk decAllocOk st chapterId root now
    unfold ChapterRepository.rotateKeyIfDue
    split
    · split
      · exact ⟨rfl, rfl, rfl⟩
      · split
        · exact ⟨rfl, rfl, rfl⟩
        · exact ⟨rfl, rfl, rfl⟩
    · exact ⟨rfl, rfl, rfl⟩

/-! ### Live buffer registry of useSecureChapter
(src/src/hooks/useSecureChapter.ts) -/

namespace SecureChapter

/-- CRYPTO_CONSTANTS.MAX_DECRYPTED_FRAGMENTS. -/
def MAX_DECRYPTED_FRAGMENTS : Nat := 2

/-- State of the liveBuffers Map (insertion order, oldest first), the set
of loadPage calls that have passed their synchronous prefix and not yet
resumed, and the log of buffers wiped by releasePage. -/
structure RegistryState where
  registry : List (Nat × Bytes)
  inFlight : List Nat
  wiped    : List Bytes
deriving DecidableEq

/-- releasePage: wipe the buffer (logged) and drop the entry. -/
def releasePage (st : RegistryState) (idx : Nat) : RegistryState :=
  match st.registry.lookup idx with
  | none => st
  | some buf =>
    { st with
      registry := st.registry.filter (fun p => p.1 != idx)
      wiped := buf :: st.wiped }

/-- The synchronous prefix of loadPage, from entry to the first await:
return early when the page is already live, evict the oldest entry when the
registry is at capacity, then suspend (mark the load in flight).  The
capacity check runs only here. -/
def loadPageStart (st : RegistryState) (idx : Nat) : RegistryState :=
  if (st.registry.lookup idx).isSome then st
  else
    let st1 :=
      if MAX_DECRYPTED_FRAGMENTS ≤ st.registry.length then
        match st.registry.head? with
        | some (oldest, _) => releasePage st oldest
        | none => st
      else st
    { st1 with inFlight := idx :: st1.inFlight }

/-- The resumption of loadPage after its awaits: the decrypted-and-mutated
buffer is inserted unconditionally (the source re-checks nothing after the
awaits). -/
def loadPageFinish (st : RegistryState) (idx : Nat) (buf : Bytes) :
    RegistryState :=
  if idx ∈ st.inFlight then
    { st with
      registry := st.registry ++ [(idx, buf)]
      inFlight := st.inFlight.erase idx }
  else st

/-- One event-loop schedule over the registry: the atomic segments of the
hook interleaved in the given order. -/
inductive RegistryOp where
  | start (idx : Nat)
  | finish (idx : Nat) (buf : Bytes)
  | release (idx : Nat)
deriving DecidableEq

def runOps (st : RegistryState) : List RegistryOp → RegistryState
  | [] => st
  | op :: rest =>
    runOps
      (match op with
        | .start idx => loadPageStart st idx
        | .finish idx buf => loadPageFinish st idx buf
        | .release idx => releasePage st idx) rest

/-- The empty registry at mount. -/
def initState : RegistryState := ⟨[], [], []⟩

end SecureChapter

/-- C3 at the failing schedule: loadPage(0), loadPage(1), loadPage(2)
issued back-to-back from an empty registry each run their synchronous
capacity check before any decryption resumes; when the three decryptions
complete, the registry holds 3 live buffers — the cap of 2 is exceeded and
no buffer was evicted or wiped. -/
theorem claim_c3_violation :
    (SecureChapter.runOps SecureChapter.initState
      [.start 0, .start 1, .start 2,
        .finish 0 [10], .finish 1 [11], .finish 2 [12]]).registry =
      [(0, [10]), (1, [11]), (2, [12])]
    ∧ (SecureChapter.runOps SecureChapter.initState
        [.start 0, .start 1, .start 2,
          .finish 0 [10], .finish 1 [11], .finish 2 [12]]).registry.length
        = 3
    ∧ SecureChapter.MAX_DECRYPTED_FRAGMENTS = 2
    ∧ (SecureChapter.runOps SecureChapter.initState
        [.start 0, .start 1, .start 2,
          .finish 0 [10], .finish 1 [11], .finish 2 [12]]).wiped = [] := by
  refine ⟨by decide, by decide, by decide, by decide⟩

end Lalona
